import Mathlib

/-!
Shallow embedding of the DavinciAI repository (src/workers.py, src/api_helper.py,
src/backend.py) used to settle the frozen claims about its specification.

Conventions of the embedding:
* Python values returned by the host application's API are modelled by `PyVal`
  (None, int, float, str); Python floats are modelled as exact rationals.
* A call into the host API that may raise is modelled as `Except Unit α`;
  a `try/except` block is an explicit `match` on that value.
* A host object is modelled by a structure whose fields give the behaviour of
  each method the source code may invoke on it; a method that the object does
  not expose (`hasattr` false, or not `callable`) is an `Option` field holding
  `none`.
* `random.randint`/`random.random` are modelled by explicit entropy streams
  (`Rng`): `randint lo hi` returns `lo + raw % (hi - lo + 1)` for the next raw
  natural of the stream (a faithful uniform implementation when the raw stream
  is uniform), and `random.random()` returns the next rational of the real
  stream.
-/

/-- Result values of host-API property accessors (Python `None`/`int`/`float`/`str`). -/
inductive PyVal : Type where
  | vNone : PyVal
  | vInt : ℤ → PyVal
  | vFloat : ℚ → PyVal
  | vStr : String → PyVal
deriving DecidableEq

/-- Python truthiness of a `PyVal` (`None`, `0`, `0.0`, `""` are falsy). -/
def pyTruthy : PyVal → Bool
  | .vNone => false
  | .vInt n => n != 0
  | .vFloat q => q != 0
  | .vStr s => s != ""

/-- Whether a `PyVal` is a string. -/
def PyVal.isStr : PyVal → Bool
  | .vStr _ => true
  | _ => false

/-- A host media-pool / timeline item as seen by `SceneDetectionWorker.run` and
`ResolveController.get_clip_name`: an opaque content tag (never consulted by the
code under verification), an optional `GetMediaPoolItem` method, an optional
`GetClipProperty` method and an optional `GetName` method.  `none` models a
missing (or non-callable) attribute; `Except.error` models a raising call. -/
inductive Item : Type where
  | mk : ℕ → Option (Except Unit (Option Item)) →
         Option (String → Except Unit PyVal) →
         Option (Except Unit PyVal) → Item

/-- Opaque content tag of an item (what "video content" would be). -/
def Item.content : Item → ℕ
  | .mk c _ _ _ => c

/-- Behaviour of `item.GetMediaPoolItem()` (absent method / raising / value). -/
def Item.getMediaPoolItem : Item → Option (Except Unit (Option Item))
  | .mk _ g _ _ => g

/-- Behaviour of `item.GetClipProperty(name)`. -/
def Item.getClipProperty : Item → Option (String → Except Unit PyVal)
  | .mk _ _ p _ => p

/-- Behaviour of `item.GetName()`. -/
def Item.getName : Item → Option (Except Unit PyVal)
  | .mk _ _ _ n => n

/-- Entropy source: a stream of raw naturals for `random.randint` and a stream
of rationals (in `[0,1)` for a faithful source) for `random.random`, each with
its read position. -/
structure Rng : Type where
  intsrc : ℕ → ℕ
  realsrc : ℕ → ℚ
  ipos : ℕ
  rpos : ℕ

/-- Model of `random.randint(lo, hi)` (both bounds inclusive): consume one raw
natural and reduce it into `[lo, hi]`. -/
def Rng.randint (r : Rng) (lo hi : ℤ) : ℤ × Rng :=
  (lo + (r.intsrc r.ipos : ℤ) % (hi - lo + 1), { r with ipos := r.ipos + 1 })

/-- Model of `random.random()`: consume one rational draw. -/
def Rng.nextReal (r : Rng) : ℚ × Rng :=
  (r.realsrc r.rpos, { r with rpos := r.rpos + 1 })

/-- Python `int()` on a float: truncation toward zero (the numerator/denominator
quotient; for `0 ≤ q` this is `⌊q⌋`, see `pyTrunc_eq_floor`). -/
def pyTrunc (q : ℚ) : ℤ :=
  if q < 0 then -((-q).num / ((-q).den : ℤ)) else q.num / (q.den : ℤ)

/-- `SceneDetectionWorker.safe_get_clip_property` (workers.py 182-189): return
the property value, or `None` when the method is absent or the call raises. -/
def safe_get_clip_property (item : Item) (property_name : String) : PyVal :=
  match item.getClipProperty with
  | some f =>
    match f property_name with
    | .ok v => v
    | .error _ => .vNone
  | none => .vNone

/-- The `duration = random.randint(20, 60)` fallback of workers.py. -/
def randDuration (rng : Rng) : ℚ × Rng :=
  let (v, rng1) := rng.randint 20 60
  ((v : ℚ), rng1)

/-- Effective clip duration (workers.py 128-142): the reported `"Duration"`
property when it is a truthy int/float, otherwise `random.randint(20, 60)`.
The timecode-string conversion branch of the source (lines 133-142) is
unreachable: a string value fails the `isinstance(duration, (int, float))`
test on line 129 and is replaced by a random duration, so it is not modelled. -/
def effectiveDuration (item : Item) (rng : Rng) : ℚ × Rng :=
  match safe_get_clip_property item "Duration" with
  | .vInt n => if n = 0 then randDuration rng else ((n : ℚ), rng)
  | .vFloat q => if q = 0 then randDuration rng else (q, rng)
  | _ => randDuration rng

/-- Scene-change cut points (workers.py 148-151):
`t1 = random.randint(2, int(duration) - 2) if duration > 4 else 1`,
`t2 = random.randint(2, int(duration) - 2) if duration > 4 else 2`,
`scene_changes = sorted([0, t1, t2, int(duration)])`. -/
def sceneCuts (duration : ℚ) (rng : Rng) : List ℤ × Rng :=
  let idur := pyTrunc duration
  if 4 < duration then
    let (t1, rng1) := rng.randint 2 (idur - 2)
    let (t2, rng2) := rng1.randint 2 (idur - 2)
    (([0, t1, t2, idur] : List ℤ).insertionSort (· ≤ ·), rng2)
  else
    (([0, 1, 2, idur] : List ℤ).insertionSort (· ≤ ·), rng)

/-- Segment selection loop (workers.py 158-171): for each consecutive pair of
cut points, skip it when shorter than 2 seconds; otherwise draw
`random.random()` and skip it when the draw is `< 0.1`; otherwise append
`(item, start, end)`. -/
def pickSegments (item : Item) : List (ℤ × ℤ) → Rng → List (Item × ℤ × ℤ) × Rng
  | [], rng => ([], rng)
  | (s, e) :: rest, rng =>
    if e - s < 2 then pickSegments item rest rng
    else
      let (r, rng1) := rng.nextReal
      let (tl, rng2) := pickSegments item rest rng1
      if r < mkRat 1 10 then (tl, rng2) else ((item, s, e) :: tl, rng2)

/-- Per-item body of `SceneDetectionWorker.run` (workers.py 84-171): skip
`None` items; resolve a timeline item through `GetMediaPoolItem` (skipping on a
raising call or a `None` result); skip items without `GetClipProperty`; then
compute the effective duration, the cut points and the kept segments. -/
def processItem (item? : Option Item) (rng : Rng) : List (Item × ℤ × ℤ) × Rng :=
  match item? with
  | none => ([], rng)
  | some item0 =>
    let resolved : Option Item :=
      match item0.getMediaPoolItem with
      | none => some item0
      | some (.ok (some mpi)) => some mpi
      | some (.ok none) => none
      | some (.error _) => none
    match resolved with
    | none => ([], rng)
    | some item =>
      match item.getClipProperty with
      | none => ([], rng)
      | some _ =>
        let (duration, rng1) := effectiveDuration item rng
        let (scene_changes, rng2) := sceneCuts duration rng1
        pickSegments item (scene_changes.zip scene_changes.tail) rng2

/-- `SceneDetectionWorker.run` (workers.py 79-180) restricted to its observable
output: the `new_clips` list passed to the `finished` signal (progress emission
does not influence `new_clips`). -/
def sceneDetectionRun : List (Option Item) → Rng → List (Item × ℤ × ℤ) × Rng
  | [], rng => ([], rng)
  | item :: rest, rng =>
    let (segs, rng1) := processItem item rng
    let (tail_clips, rng2) := sceneDetectionRun rest rng1
    (segs ++ tail_clips, rng2)

/-- Specification-side description of the segment filter: the k-th
length-qualified candidate segment is dropped exactly when the k-th dedicated
`random.random()` draw is below `0.1`. -/
def keepFrom (src : ℕ → ℚ) : ℕ → List (ℤ × ℤ) → List (ℤ × ℤ)
  | _, [] => []
  | k, p :: rest =>
    if src k < mkRat 1 10 then keepFrom src (k + 1) rest
    else p :: keepFrom src (k + 1) rest

/-! ## Simulated workers (workers.py: AIWorker, ExportWorker, BatchExportWorker) -/

/-- Observable events of a worker run: `progress.emit(v)` and `finished.emit()`. -/
inductive WEvent : Type where
  | progress : ℕ → WEvent
  | fin : WEvent
deriving DecidableEq

/-- The `for i in range(total_steps + 1)` body shared by the three simulated
workers: starting at step `i` with `fuel` iterations left, emit
`progress.emit(val i)` at every step divisible by 5 (the sleeps have no
observable effect).  `raiseAt i = true` models an exception raised inside
iteration `i` (before its emit); the loop then aborts with the second
component `true`, mirroring Python control flow into the `except` clause. -/
def loopBody (val : ℕ → ℕ) (raiseAt : ℕ → Bool) : ℕ → ℕ → List WEvent × Bool
  | _, 0 => ([], false)
  | i, fuel + 1 =>
    if raiseAt i then ([], true)
    else
      let rest := loopBody val raiseAt (i + 1) fuel
      (if i % 5 = 0 then WEvent.progress (val i) :: rest.1 else rest.1, rest.2)

/-- `AIWorker.run` (workers.py 14-27): 101 loop steps emitting the step index,
then — whether or not the body raised (the `except` clause only logs) — the
`finally` block emits `finished`.  `num_clips` only scales the simulated sleep
and has no observable effect. -/
def aiWorkerRun (num_clips : ℕ) (raiseAt : ℕ → Bool) : List WEvent :=
  let _ := num_clips
  (loopBody (fun i => i) raiseAt 0 101).1 ++ [WEvent.fin]

/-- `ExportWorker.run` (workers.py 33-46): identical observable behaviour. -/
def exportWorkerRun (raiseAt : ℕ → Bool) : List WEvent :=
  (loopBody (fun i => i) raiseAt 0 101).1 ++ [WEvent.fin]

/-- `BatchExportWorker.run` (workers.py 56-69): `total_steps = 100 * num_exports`
steps, emitting `int(i / total_steps * 100)` (float arithmetic modelled as exact
rational arithmetic followed by truncation, which for these nonnegative values
is natural-number division). -/
def batchExportWorkerRun (num_exports : ℕ) (raiseAt : ℕ → Bool) : List WEvent :=
  (loopBody (fun i => i * 100 / (100 * num_exports)) raiseAt 0 (100 * num_exports + 1)).1
    ++ [WEvent.fin]

/-- The `raiseAt` oracle of a run in which no exception occurs. -/
def noRaise : ℕ → Bool := fun _ => false

/-- Projection of a worker event trace to its emitted progress percentages. -/
def progressValues (events : List WEvent) : List ℕ :=
  events.filterMap (fun e => match e with | .progress v => some v | .fin => none)

/-! ## `ResolveController.seconds_to_timecode` (backend.py 145-153) -/

/-- Decimal digits, least significant first, with structural fuel (the fuel
`n` always suffices since the value shrinks by a factor of ten each step). -/
def decDigitsGo : ℕ → ℕ → List ℕ
  | 0, n => [n]
  | fuel + 1, n => if n < 10 then [n] else (n % 10) :: decDigitsGo fuel (n / 10)

/-- Decimal digits of a natural number, least significant first. -/
def decDigits (n : ℕ) : List ℕ := decDigitsGo n n

/-- Character of a decimal digit. -/
def digitChar (d : ℕ) : Char := Char.ofNat (48 + d)

/-- Decimal rendering of a natural number (Python `str` on a nonnegative int). -/
def natRepr (n : ℕ) : String := ⟨((decDigits n).reverse).map digitChar⟩

/-- Python 02d format for a nonnegative value: pad a single digit with a zero. -/
def fmt02 (n : ℕ) : String :=
  if n < 10 then "0" ++ natRepr n else natRepr n

/-- Python 02d format on an arbitrary int (negative values print a sign and
are then already at least two characters wide). -/
def fmt02i (n : ℤ) : String :=
  if n < 0 then "-" ++ natRepr n.natAbs else fmt02 n.toNat

/-- Python 3 `round` on a float, modelled exactly on rationals: round half to
even. -/
def pyRound (q : ℚ) : ℤ :=
  if q - ⌊q⌋ < 1/2 then ⌊q⌋
  else if 1/2 < q - ⌊q⌋ then ⌊q⌋ + 1
  else if ⌊q⌋ % 2 = 0 then ⌊q⌋ else ⌊q⌋ + 1

/-- `ResolveController.seconds_to_timecode` (backend.py 145-153).  Python `//`
and `%` on ints agree with `Int.ediv`/`Int.emod` for the positive divisors used
here. -/
def seconds_to_timecode (seconds : ℚ) (fps : ℕ) : String :=
  let frames0 : ℤ := pyRound (seconds * fps)
  let h := Int.ediv frames0 ((fps : ℤ) * 3600)
  let frames1 := Int.emod frames0 ((fps : ℤ) * 3600)
  let m := Int.ediv frames1 ((fps : ℤ) * 60)
  let frames2 := Int.emod frames1 ((fps : ℤ) * 60)
  let s := Int.ediv frames2 (fps : ℤ)
  let f := Int.emod frames2 (fps : ℤ)
  fmt02i h ++ ":" ++ fmt02i m ++ ":" ++ fmt02i s ++ ":" ++ fmt02i f

/-! ## `ResolveController.get_clip_name` (backend.py 155-182) -/

/-- The property loop of `get_clip_name` (backend.py 166-172): `name` starts as
`None`; each successful `GetClipProperty` call overwrites `name` (breaking on a
truthy value); a raising call leaves `name` unchanged. -/
def propLoop (f : String → Except Unit PyVal) : List String → PyVal → PyVal
  | [], name => name
  | p :: rest, name =>
    match f p with
    | .ok v => if pyTruthy v then v else propLoop f rest v
    | .error _ => propLoop f rest name

/-- `ResolveController.get_clip_name` (backend.py 155-182): `None` (or falsy)
input and items without a `GetClipProperty` attribute give `"Unknown"`;
otherwise probe `"File Path"`, `"Clip Name"`, `"Name"`, fall back to
`GetName()` (any exception giving `None`), and return `name or "Unknown"`. -/
def get_clip_name (clip_item : Option Item) : PyVal :=
  match clip_item with
  | none => .vStr "Unknown"
  | some ci =>
    match ci.getClipProperty with
    | none => .vStr "Unknown"
    | some f =>
      let name := propLoop f ["File Path", "Clip Name", "Name"] .vNone
      let name :=
        if pyTruthy name then name
        else
          match ci.getName with
          | some (.ok v) => v
          | some (.error _) => .vNone
          | none => .vNone
      if pyTruthy name then name else .vStr "Unknown"

/-- Specification-side description of the name search of `get_clip_name`: the
first truthy value among the successful property calls. -/
def firstTruthyProp (f : String → Except Unit PyVal) : List String → Option PyVal
  | [] => none
  | p :: rest =>
    match f p with
    | .ok v => if pyTruthy v then some v else firstTruthyProp f rest
    | .error _ => firstTruthyProp f rest

/-- Specification-side description of the truthy name yielded by the calls
`get_clip_name` actually performs: the first truthy probed property, else a
truthy `GetName()` result (`GetName` is only reached when the property loop
yielded nothing truthy, and is only consulted when `GetClipProperty` exists). -/
def yieldedTruthyName (clip_item : Option Item) : Option PyVal :=
  match clip_item with
  | none => none
  | some ci =>
    match ci.getClipProperty with
    | none => none
    | some f =>
      match firstTruthyProp f ["File Path", "Clip Name", "Name"] with
      | some v => some v
      | none =>
        match ci.getName with
        | some (.ok v) => if pyTruthy v then some v else none
        | some (.error _) => none
        | none => none

/-! ## `ResolveAPIHelper` (api_helper.py) -/

/-- A generic host object as seen by the capability probe: for each attribute
name, `none` when `hasattr` is false, `some c` when the attribute exists with
`c` its callability. -/
structure HostObj : Type where
  attrs : String → Option Bool

/-- Python `hasattr(obj, m) and callable(obj.m)`. -/
def hasattrCallable (o : HostObj) (m : String) : Bool :=
  (o.attrs m).getD false

/-- Host project object (api_helper.py probes `GetCurrentTimeline` and
`GetMediaPool` on it). -/
structure ProjObj : Type where
  getCurrentTimeline : Except Unit (Option HostObj)
  getMediaPool : Except Unit (Option HostObj)

/-- Host project-manager object. -/
structure PMObj : Type where
  getCurrentProject : Except Unit (Option ProjObj)

/-- Host `resolve` object. -/
structure ResolveEnv : Type where
  getProjectManager : Except Unit (Option PMObj)

/-- The object-fetching prefix of `_detect_available_methods` (api_helper.py
40-43): `none` when any step raises (the surrounding `try` then returns the
still-empty dict); a call on a `None` project manager raises `AttributeError`
and is treated identically.  A falsy project gives `None` for both the
timeline and the media pool. -/
def probeObjects (r : ResolveEnv) : Option (Option HostObj × Option HostObj) :=
  match r.getProjectManager with
  | .error _ => none
  | .ok none => none
  | .ok (some pm) =>
    match pm.getCurrentProject with
    | .error _ => none
    | .ok none => some (none, none)
    | .ok (some project) =>
      match project.getCurrentTimeline with
      | .error _ => none
      | .ok timeline? =>
        match project.getMediaPool with
        | .error _ => none
        | .ok media_pool? => some (timeline?, media_pool?)

/-- The timeline methods probed at api_helper.py 47-52. -/
def timelineMethodNames : List String :=
  ["AddTransition", "RemoveItem", "GetItemListInTrack",
   "InsertFusionTitleIntoTimeline", "InsertFusionGeneratorIntoTimeline",
   "CreateSubtitlesFromAudio"]

/-- The media-pool methods probed at api_helper.py 56-58. -/
def mediaPoolMethodNames : List String :=
  ["DuplicateMediaPoolItem", "AppendToTimeline", "TranscribeAudio"]

/-- `ResolveAPIHelper._detect_available_methods` (api_helper.py 34-67): the
`available` dict, modelled as an association list in insertion order.  Entries
are only written when the corresponding object is truthy; any exception while
fetching the objects leaves the dict empty. -/
def detect_available_methods (r : ResolveEnv) : List (String × Bool) :=
  match probeObjects r with
  | none => []
  | some (timeline?, media_pool?) =>
    (match timeline? with
     | some timeline =>
       timelineMethodNames.map
         (fun m => ("timeline." ++ m, hasattrCallable timeline m))
     | none => []) ++
    (match media_pool? with
     | some media_pool =>
       mediaPoolMethodNames.map
         (fun m => ("mediaPool." ++ m, hasattrCallable media_pool m))
     | none => [])

/-- `ResolveAPIHelper.is_method_available` (api_helper.py 69-71):
`self.available_methods.get(method_name, False)`. -/
def is_method_available (available_methods : List (String × Bool))
    (method_name : String) : Bool :=
  (available_methods.lookup method_name).getD false

/-- An item sitting in a timeline track (the objects returned by
`GetItemsInTrack`/`GetItemListInTrack`): an id and the behaviour of its
`ApplyLUT` method for a given LUT path. -/
structure TClip : Type where
  id : ℕ
  applyLUT : String → Except Unit Unit

/-- A host timeline object as used by backend.py and the safe helpers: the
behaviour of `GetItemsInTrack("video", 1)`, `GetItemListInTrack("video", 1)`,
`AddTransition` (by the ids of the two clips) and `RemoveItem` (by clip id). -/
structure BTimeline : Type where
  getItemsInTrack : Except Unit (List TClip)
  getItemListInTrack : Except Unit (List TClip)
  addTransition : ℕ → ℕ → Except Unit Bool
  removeItem : ℕ → Except Unit Bool

/-- `ResolveAPIHelper.safe_add_transition` (api_helper.py 73-88): call
`timeline.AddTransition` only when the probed map marks it available, catching
a raising call into `False`; otherwise log, skip and return `False`. -/
def safe_add_transition (available_methods : List (String × Bool))
    (timeline : BTimeline) (_transition_type : String)
    (clip1 clip2 : TClip) (_duration : ℕ) : Bool :=
  if is_method_available available_methods "timeline.AddTransition" then
    match timeline.addTransition clip1.id clip2.id with
    | .ok result => result
    | .error _ => false
  else false

/-- `ResolveAPIHelper.safe_remove_timeline_item` (api_helper.py 90-101). -/
def safe_remove_timeline_item (available_methods : List (String × Bool))
    (timeline : BTimeline) (item : TClip) : Bool :=
  if is_method_available available_methods "timeline.RemoveItem" then
    match timeline.removeItem item.id with
    | .ok result => result
    | .error _ => false
  else false

/-- Specification-side availability (from the spec's words): for a probed
method name, `hasattr(obj, m) and callable(obj.m)` on the corresponding
timeline or media-pool object; `none` for a name that was not probed (object
missing, probing raised, or unknown name). -/
def specAvail (probe : Option (Option HostObj × Option HostObj))
    (method_name : String) : Option Bool :=
  match probe with
  | none => none
  | some (timeline?, media_pool?) =>
    match timeline?, timelineMethodNames.find? (fun b => "timeline." ++ b = method_name) with
    | some timeline, some b => some (hasattrCallable timeline b)
    | _, _ =>
      match media_pool?, mediaPoolMethodNames.find? (fun b => "mediaPool." ++ b = method_name) with
      | some media_pool, some b => some (hasattrCallable media_pool b)
      | _, _ => none

/-! ## `ResolveController` (backend.py) -/

/-- Host media-pool object behaviours used by the controller. -/
structure BMediaPool : Type where
  importMediaCall : List String → Except Unit (Option (List Item))
  createTimelineFromClips : Except Unit (Option BTimeline)
  duplicateMediaPoolItem : Item → Except Unit (Option Item)
  appendToTimeline : List Item → Except Unit Unit

/-- The state of a connected `ResolveController`: behaviours of
`project.GetCurrentTimeline`, the media pool, the (possibly missing)
`api_helper` availability map, and `os.path.exists`. -/
structure Ctrl : Type where
  projGetCurrentTimeline : Except Unit (Option BTimeline)
  media_pool : BMediaPool
  api_helper : Option (List (String × Bool))
  pathExists : String → Bool

/-- A Python `try: body except: return fallback` at the top of a method. -/
def pyCatch {α : Type} (body : Except Unit α) (fallback : α) : Except Unit α :=
  match body with
  | .ok v => .ok v
  | .error _ => .ok fallback

/-- `ResolveController.get_current_timeline` (backend.py 123-131): return the
current timeline (possibly `None`), catching exceptions into `None`. -/
def get_current_timeline (c : Ctrl) : Except Unit (Option BTimeline) :=
  match c.projGetCurrentTimeline with
  | .ok timeline? => .ok timeline?
  | .error _ => .ok none

/-- `ResolveController.import_media` (backend.py 90-105): filter the paths by
`os.path.exists`, return `None` when none exist, otherwise `ImportMedia`, all
inside a catch-all returning `None`. -/
def import_media (c : Ctrl) (file_paths : List String) :
    Except Unit (Option (List Item)) :=
  pyCatch
    (let valid_paths := file_paths.filter c.pathExists
     if valid_paths.isEmpty then .ok none
     else c.media_pool.importMediaCall valid_paths)
    none

/-- The per-clip LUT loop of backend.py 136-140 / 247-251: each `ApplyLUT`
call is wrapped in its own `try/except`, so a raising call is swallowed. -/
def applyLUTLoop (lut_path : String) : List TClip → Unit
  | [] => ()
  | clip :: rest =>
    match clip.applyLUT lut_path with
    | .ok _ => applyLUTLoop lut_path rest
    | .error _ => applyLUTLoop lut_path rest

/-- `ResolveController.apply_lut` (backend.py 133-143).  Note that the
`timeline.GetItemsInTrack("video", 1)` call on line 136 is not inside any
`try`, so an exception it raises propagates to the caller; only the per-clip
`ApplyLUT` calls are protected. -/
def apply_lut (c : Ctrl) (lut_path : String) : Except Unit Unit := do
  let timeline? ← get_current_timeline c
  match timeline? with
  | some timeline => do
    let clips ← timeline.getItemsInTrack
    pure (applyLUTLoop lut_path clips)
  | none => pure ()

/-- The transition loop of backend.py 259-262: `safe_add_transition` on each
consecutive pair of video items (never raises; results are only logged). -/
def transitionsLoop (available_methods : List (String × Bool))
    (timeline : BTimeline) : List TClip → List Bool
  | a :: b :: rest =>
    safe_add_transition available_methods timeline "Cross Dissolve" a b 30 ::
      transitionsLoop available_methods timeline (b :: rest)
  | _ => []

/-- `ResolveController.auto_apply_color_and_transitions` (backend.py 239-267).
The `GetItemsInTrack` call on line 247 and the `GetItemListInTrack` call on
line 258 are not inside any `try` in this method, so their exceptions
propagate; the per-clip `ApplyLUT` calls and `safe_add_transition` do not. -/
def auto_apply_color_and_transitions (c : Ctrl) (timeline? : Option BTimeline) :
    Except Unit Unit :=
  match timeline? with
  | none => .ok ()
  | some timeline => do
    let _ ←
      (if c.pathExists "C:/Path/To/SomeDefaultLUT.cube" then do
        let clips ← timeline.getItemsInTrack
        pure (applyLUTLoop "C:/Path/To/SomeDefaultLUT.cube" clips)
      else pure ())
    match c.api_helper with
    | some available_methods =>
      if is_method_available available_methods "timeline.AddTransition" then do
        let video_items ← timeline.getItemListInTrack
        pure (let _ := transitionsLoop available_methods timeline video_items; ())
      else pure ()
    | none => pure ()

/-- `ResolveController.create_timeline` (backend.py 107-121): inside a
catch-all returning `None`: refuse empty clip lists, call
`CreateTimelineFromClips`, and on success run the color/transition pass. -/
def create_timeline (c : Ctrl) (clips : List Item) :
    Except Unit (Option BTimeline) :=
  pyCatch
    (if clips.isEmpty then .ok none
     else do
       let timeline? ← c.media_pool.createTimelineFromClips
       match timeline? with
       | some timeline => do
         let _ ← auto_apply_color_and_transitions c (some timeline)
         pure (some timeline)
       | none => pure none)
    none

/-- The clip-removal loop of backend.py 200-201 (`safe_remove_timeline_item`
on each current track item; never raises). -/
def removalLoop (available_methods : List (String × Bool))
    (timeline : BTimeline) : List TClip → List Bool
  | [] => []
  | clip :: rest =>
    safe_remove_timeline_item available_methods timeline clip ::
      removalLoop available_methods timeline rest

/-- The append loop of backend.py 205-230: per clip, compute its name and
timecodes (logging only), optionally duplicate the media-pool item (a raising
`DuplicateMediaPoolItem` is caught and falls back to the source clip), and
append, with `AppendToTimeline` wrapped in its own `try/except`. -/
def appendLoop (c : Ctrl) : List (Item × ℚ × ℚ) → Unit
  | [] => ()
  | (source_clip, start_sec, end_sec) :: rest =>
    let _clip_name := get_clip_name (some source_clip)
    let has_duplicate_method :=
      match c.api_helper with
      | some available_methods =>
        is_method_available available_methods "mediaPool.DuplicateMediaPoolItem"
      | none => false
    let trimmed_clip : Option Item :=
      if has_duplicate_method then
        match c.media_pool.duplicateMediaPoolItem source_clip with
        | .ok v => v
        | .error _ => none
      else none
    let final_clip := trimmed_clip.getD source_clip
    let _start_tc := seconds_to_timecode start_sec 30
    let _end_tc := seconds_to_timecode end_sec 30
    match c.media_pool.appendToTimeline [final_clip] with
    | .ok _ => appendLoop c rest
    | .error _ => appendLoop c rest

/-- `ResolveController.update_timeline_with_trimmed_clips` (backend.py
184-237): the entire body sits inside one `try` whose `except` returns
`False`, so no exception escapes. -/
def update_timeline_with_trimmed_clips (c : Ctrl)
    (new_clips : List (Item × ℚ × ℚ)) : Except Unit Bool :=
  pyCatch
    (if new_clips.isEmpty then .ok false
     else do
       let timeline? ← get_current_timeline c
       match timeline? with
       | none => pure false
       | some timeline => do
         let all_clips ← timeline.getItemListInTrack
         let _ :=
           match c.api_helper with
           | some available_methods =>
             if is_method_available available_methods "timeline.RemoveItem" then
               removalLoop available_methods timeline all_clips
             else []
           | none => []
         let _ := appendLoop c new_clips
         let _ ← auto_apply_color_and_transitions c (some timeline)
         pure true)
    false

/-- `ResolveController.fusion_automation` (backend.py 293-308): a stub inside
a catch-all returning `False`. -/
def fusion_automation (c : Ctrl) : Except Unit Bool :=
  pyCatch
    (do
      let timeline? ← get_current_timeline c
      match timeline? with
      | none => pure false
      | some _ => pure true)
    false

/-- Whether an `Except` computation completed without an uncaught exception. -/
def isOkE {α : Type} : Except Unit α → Bool
  | .ok _ => true
  | .error _ => false

/-! ## Concrete inputs used by counterexamples and witnesses -/

/-- A deterministic entropy source: raw ints `0, 1, 2, ...` and every
`random.random()` draw equal to `1/2`. -/
def rngW : Rng := ⟨fun k => k, fun _ => mkRat 1 2, 0, 0⟩

/-- A media-pool item reporting `"Duration" = 20` and no other properties. -/
def durItem20 : Item :=
  .mk 0 none (some (fun p => if p = "Duration" then .ok (.vInt 20) else .ok .vNone)) none

/-- A media-pool item reporting the (adversarial but type-correct) duration
`-5`. -/
def durItemNeg : Item :=
  .mk 0 none (some (fun p => if p = "Duration" then .ok (.vInt (-5)) else .ok .vNone)) none

/-- A clip item whose every property is the integer `5`. -/
def item5 : Item := .mk 0 none (some (fun _ => .ok (.vInt 5))) none

/-- A timeline whose `GetItemsInTrack` raises and whose other methods work. -/
def tlRaising : BTimeline :=
  ⟨.error (), .ok [], fun _ _ => .ok true, fun _ => .ok true⟩

/-- A timeline stub with benign behaviour. -/
def tlStub : BTimeline :=
  ⟨.ok [], .ok [], fun _ _ => .ok true, fun _ => .ok true⟩

/-- A media-pool stub with benign behaviour. -/
def mpStub : BMediaPool :=
  ⟨fun _ => .ok none, .ok none, fun _ => .ok none, fun _ => .ok ()⟩

/-- A controller whose current timeline is `tlRaising`. -/
def ctrlRaising : Ctrl := ⟨.ok (some tlRaising), mpStub, none, fun _ => true⟩

/-- Two timeline clips used as transition arguments. -/
def clipA : TClip := ⟨0, fun _ => .ok ()⟩

/-- Second timeline clip. -/
def clipB : TClip := ⟨1, fun _ => .ok ()⟩

/-- A timeline whose `AddTransition` and `RemoveItem` raise. -/
def tlErrT : BTimeline :=
  ⟨.ok [], .ok [], fun _ _ => .error (), fun _ => .error ()⟩

/-- An availability map marking both gated timeline methods available. -/
def availAll : List (String × Bool) :=
  [("timeline.AddTransition", true), ("timeline.RemoveItem", true)]

/-- A host timeline object exposing a callable `AddTransition` and a
non-callable `RemoveItem`. -/
def hostTl : HostObj :=
  ⟨fun m => if m = "AddTransition" then some true
            else if m = "RemoveItem" then some false else none⟩

/-- A probing environment whose project has timeline `hostTl` and no media
pool. -/
def envProbe : ResolveEnv :=
  ⟨.ok (some ⟨.ok (some ⟨.ok (some hostTl), .ok none⟩)⟩)⟩

/-! ## Helper lemmas -/

theorem randint_bounds (rng : Rng) (lo hi : ℤ) (h : lo ≤ hi) :
    lo ≤ (rng.randint lo hi).1 ∧ (rng.randint lo hi).1 ≤ hi := by
  have hp : (0 : ℤ) < hi - lo + 1 := by omega
  have h1 : 0 ≤ ((rng.intsrc rng.ipos : ℤ)) % (hi - lo + 1) :=
    Int.emod_nonneg _ (by omega)
  have h2 : ((rng.intsrc rng.ipos : ℤ)) % (hi - lo + 1) < hi - lo + 1 :=
    Int.emod_lt_of_pos _ hp
  constructor <;> simp only [Rng.randint] <;> omega

theorem pyTrunc_eq_floor (q : ℚ) (h : 0 ≤ q) : pyTrunc q = ⌊q⌋ := by
  have h0 : ¬ q < 0 := by linarith
  simp only [pyTrunc, h0, if_false]
  exact Rat.floor_def.symm

theorem pyTrunc_ge4 (d : ℚ) (h : 4 < d) : 4 ≤ pyTrunc d := by
  rw [pyTrunc_eq_floor d (by linarith)]
  exact Int.le_floor.mpr (by exact_mod_cast h.le)

theorem sceneCuts_spec (d : ℚ) (rng : Rng) (h : 4 < d) :
    (sceneCuts d rng).1.Perm
      [0, (rng.randint 2 (pyTrunc d - 2)).1,
       ((rng.randint 2 (pyTrunc d - 2)).2.randint 2 (pyTrunc d - 2)).1, pyTrunc d] ∧
    (sceneCuts d rng).1.Sorted (· ≤ ·) := by
  have hcuts : (sceneCuts d rng).1 =
      ([0, (rng.randint 2 (pyTrunc d - 2)).1,
        ((rng.randint 2 (pyTrunc d - 2)).2.randint 2 (pyTrunc d - 2)).1,
        pyTrunc d] : List ℤ).insertionSort (· ≤ ·) := by
    simp only [sceneCuts, if_pos h]
  rw [hcuts]
  exact ⟨List.perm_insertionSort _ _, List.sorted_insertionSort _ _⟩

theorem keepFrom_subset (src : ℕ → ℚ) :
    ∀ (l : List (ℤ × ℤ)) (k : ℕ) (p : ℤ × ℤ), p ∈ keepFrom src k l → p ∈ l := by
  intro l
  induction l with
  | nil => intro k p hp; simp [keepFrom] at hp
  | cons q rest ih =>
    intro k p hp
    simp only [keepFrom] at hp
    by_cases hs : src k < mkRat 1 10
    · simp only [hs, if_pos] at hp
      exact List.mem_cons_of_mem _ (ih (k + 1) p hp)
    · simp only [hs, if_neg, not_false_iff] at hp
      rcases List.mem_cons.mp hp with h | h
      · exact h ▸ List.mem_cons_self _ _
      · exact List.mem_cons_of_mem _ (ih (k + 1) p h)

theorem pickSegments_eq_keepFrom (item : Item) :
    ∀ (pairs : List (ℤ × ℤ)) (rng : Rng),
      (pickSegments item pairs rng).1 =
        (keepFrom rng.realsrc rng.rpos
          (pairs.filter (fun p => decide (2 ≤ p.2 - p.1)))).map
          (fun p => (item, p.1, p.2)) := by
  intro pairs
  induction pairs with
  | nil => intro rng; rfl
  | cons q rest ih =>
    intro rng
    obtain ⟨s, e⟩ := q
    by_cases hlen : e - s < 2
    · have hq : decide (2 ≤ (s, e).2 - (s, e).1) = false := by
        simp; omega
      simp only [pickSegments, if_pos hlen, List.filter_cons, hq, if_neg Bool.false_ne_true]
      exact ih rng
    · have hq : decide (2 ≤ (s, e).2 - (s, e).1) = true := by
        simp; omega
      simp only [pickSegments, if_neg hlen, List.filter_cons, hq, if_pos rfl]
      simp only [Rng.nextReal, keepFrom]
      by_cases hr : rng.realsrc rng.rpos < mkRat 1 10
      · simp only [hr, if_pos]
        exact ih _
      · simp only [hr, if_neg, not_false_iff, List.map_cons]
        rw [ih _]

theorem effectiveDuration_congr (it1 it2 : Item) (rng : Rng)
    (h : safe_get_clip_property it1 "Duration" = safe_get_clip_property it2 "Duration") :
    effectiveDuration it1 rng = effectiveDuration it2 rng := by
  simp only [effectiveDuration, h]

/-! ## Claim C1 -/

/-- C1 counterexample: the claim says the scene-change cut points are obtained
by sorting a list of three randomly generated numbers.  On the code, for a clip
of duration 20 with entropy `rngW`, the cut list is `sorted([0, t1, t2,
int(duration)]) = [0, 2, 3, 20]`: a four-element list (sorting preserves
length, so it is not the sort of any three-element list), and `0` is a constant,
not a random draw. -/
theorem C1_counterexample :
    (sceneCuts 20 rngW).1 = [0, 2, 3, 20] ∧ ((sceneCuts 20 rngW).1).length ≠ 3 := by
  constructor
  · decide
  · decide

/-- C1 (amended): for every clip processed with duration > 4, the list of
scene-change cut points is obtained by sorting the four-element list
`[0, t1, t2, int(duration)]`, of which `t1` and `t2` are the two randomly
generated numbers (consecutive `randint` draws). -/
theorem C1_cuts_sorted_four (d : ℚ) (rng : Rng) (h : 4 < d) :
    ∃ t1 t2 : ℤ,
      t1 = (rng.randint 2 (pyTrunc d - 2)).1 ∧
      t2 = ((rng.randint 2 (pyTrunc d - 2)).2.randint 2 (pyTrunc d - 2)).1 ∧
      (sceneCuts d rng).1.Perm [0, t1, t2, pyTrunc d] ∧
      (sceneCuts d rng).1.Sorted (· ≤ ·) ∧
      ((sceneCuts d rng).1).length = 4 := by
  obtain ⟨hperm, hsort⟩ := sceneCuts_spec d rng h
  exact ⟨_, _, rfl, rfl, hperm, hsort, by rw [hperm.length_eq]; rfl⟩

/-- C1 witness: the amended statement instantiated at duration 20 and entropy
`rngW`. -/
theorem C1_witness :
    (4 : ℚ) < 20 ∧
    ∃ t1 t2 : ℤ,
      t1 = (rngW.randint 2 (pyTrunc 20 - 2)).1 ∧
      t2 = ((rngW.randint 2 (pyTrunc 20 - 2)).2.randint 2 (pyTrunc 20 - 2)).1 ∧
      (sceneCuts 20 rngW).1.Perm [0, t1, t2, pyTrunc 20] ∧
      (sceneCuts 20 rngW).1.Sorted (· ≤ ·) ∧
      ((sceneCuts 20 rngW).1).length = 4 :=
  ⟨by norm_num, C1_cuts_sorted_four 20 rngW (by norm_num)⟩

/-! ## Claim C3 -/

/-- C3: the scene-detection worker performs no video analysis.  (1) When the
effective duration is > 4, both generated cut points are `randint` draws lying
in `[2, int(duration) - 2]`.  (2) The kept segments are exactly the
length-qualified candidate segments minus those whose dedicated
`random.random()` draw is below `0.1` (each candidate consumes its own
independent draw).  (3) The emitted `(start, end)` pairs of an item depend only
on the entropy stream and the reported `"Duration"` property, never on the
item's content. -/
theorem C3_no_video_analysis :
    (∀ (d : ℚ) (rng : Rng), 4 < d →
      2 ≤ (rng.randint 2 (pyTrunc d - 2)).1 ∧
      (rng.randint 2 (pyTrunc d - 2)).1 ≤ pyTrunc d - 2 ∧
      2 ≤ ((rng.randint 2 (pyTrunc d - 2)).2.randint 2 (pyTrunc d - 2)).1 ∧
      ((rng.randint 2 (pyTrunc d - 2)).2.randint 2 (pyTrunc d - 2)).1 ≤ pyTrunc d - 2) ∧
    (∀ (item : Item) (pairs : List (ℤ × ℤ)) (rng : Rng),
      (pickSegments item pairs rng).1 =
        (keepFrom rng.realsrc rng.rpos
          (pairs.filter (fun p => decide (2 ≤ p.2 - p.1)))).map
          (fun p => (item, p.1, p.2))) ∧
    (∀ (it1 it2 : Item) (rng : Rng),
      it1.getMediaPoolItem = none → it2.getMediaPoolItem = none →
      it1.getClipProperty.isSome → it2.getClipProperty.isSome →
      safe_get_clip_property it1 "Duration" = safe_get_clip_property it2 "Duration" →
      (processItem (some it1) rng).1.map (fun t => (t.2.1, t.2.2)) =
        (processItem (some it2) rng).1.map (fun t => (t.2.1, t.2.2))) := by
  refine ⟨?_, ?_, ?_⟩
  · intro d rng h
    have hb : (2 : ℤ) ≤ pyTrunc d - 2 := by have := pyTrunc_ge4 d h; omega
    obtain ⟨h1, h2⟩ := randint_bounds rng 2 (pyTrunc d - 2) hb
    obtain ⟨h3, h4⟩ := randint_bounds (rng.randint 2 (pyTrunc d - 2)).2 2 (pyTrunc d - 2) hb
    exact ⟨h1, h2, h3, h4⟩
  · intro item pairs rng
    exact pickSegments_eq_keepFrom item pairs rng
  · intro it1 it2 rng hm1 hm2 hp1 hp2 hdur
    obtain ⟨f1, hf1⟩ := Option.isSome_iff_exists.mp hp1
    obtain ⟨f2, hf2⟩ := Option.isSome_iff_exists.mp hp2
    have hdur' : effectiveDuration it1 rng = effectiveDuration it2 rng :=
      effectiveDuration_congr it1 it2 rng hdur
    simp only [processItem, hm1, hm2, hf1, hf2, hdur']
    rw [pickSegments_eq_keepFrom, pickSegments_eq_keepFrom]
    simp [List.map_map, Function.comp]

/-- C3 witness: the three components instantiated at duration 20, a singleton
candidate list and the two concrete items `durItem20` (content tag 0) and its
recontented twin. -/
theorem C3_witness :
    ((4 : ℚ) < 20 ∧
      2 ≤ (rngW.randint 2 (pyTrunc 20 - 2)).1 ∧
      (rngW.randint 2 (pyTrunc 20 - 2)).1 ≤ pyTrunc 20 - 2 ∧
      2 ≤ ((rngW.randint 2 (pyTrunc 20 - 2)).2.randint 2 (pyTrunc 20 - 2)).1 ∧
      ((rngW.randint 2 (pyTrunc 20 - 2)).2.randint 2 (pyTrunc 20 - 2)).1 ≤ pyTrunc 20 - 2) ∧
    (pickSegments durItem20 [(0, 5)] rngW).1 =
      (keepFrom rngW.realsrc rngW.rpos
        ([((0 : ℤ), (5 : ℤ))].filter (fun p => decide (2 ≤ p.2 - p.1)))).map
        (fun p => (durItem20, p.1, p.2)) ∧
    (durItem20.getMediaPoolItem = none ∧
      durItem20.getClipProperty.isSome = true ∧
      (processItem (some durItem20) rngW).1.map (fun t => (t.2.1, t.2.2)) =
        (processItem (some durItem20) rngW).1.map (fun t => (t.2.1, t.2.2))) := by
  refine ⟨⟨by norm_num, ?_⟩, ?_, ?_, ?_, ?_⟩
  · exact C3_no_video_analysis.1 20 rngW (by norm_num)
  · exact C3_no_video_analysis.2.1 durItem20 [(0, 5)] rngW
  · rfl
  · rfl
  · exact C3_no_video_analysis.2.2 durItem20 durItem20 rngW rfl rfl (by rfl) (by rfl) rfl

/-! ## Claim C9 -/

/-- C9 counterexample: for an item reporting duration `-5`, the emitted list
contains the tuple `(item, -5, 0)`, whose start `-5` violates the claimed
`0 <= start`. -/
theorem C9_counterexample :
    (sceneDetectionRun [some durItemNeg] rngW).1.map (fun t => (t.2.1, t.2.2)) =
      [(-5, 0)] ∧ ((-5 : ℤ) < 0) := by
  constructor
  · decide
  · decide

/-- C9 (amended): every `(item, start, end)` tuple in the list emitted by
`SceneDetectionWorker`'s finished signal satisfies `start < end` and
`end - start >= 2`; segments shorter than 2 seconds are never included.  (The
claimed `0 <= start` can fail when a clip reports a negative duration, as the
counterexample shows.) -/
theorem pickSegments_mem (it : Item) (pairs : List (ℤ × ℤ)) (r' : Rng)
    (q : ℤ × ℤ)
    (hq : q ∈ (pickSegments it pairs r').1.map (fun t => (t.2.1, t.2.2))) :
    2 ≤ q.2 - q.1 := by
  rw [pickSegments_eq_keepFrom, List.map_map] at hq
  obtain ⟨p', hp', hpq⟩ := List.mem_map.mp hq
  have hmem := keepFrom_subset r'.realsrc _ _ _ hp'
  have hpred := List.of_mem_filter hmem
  simp only [decide_eq_true_eq] at hpred
  subst hpq
  simpa using hpred

theorem processItem_mem (item? : Option Item) (r : Rng) (q : ℤ × ℤ)
    (hq : q ∈ (processItem item? r).1.map (fun t => (t.2.1, t.2.2))) :
    2 ≤ q.2 - q.1 := by
  cases item? with
  | none => simp [processItem] at hq
  | some item0 =>
    simp only [processItem] at hq
    cases hmp : item0.getMediaPoolItem with
    | none =>
      simp only [hmp] at hq
      cases hcp : item0.getClipProperty with
      | none => simp [hcp] at hq
      | some f =>
        simp only [hcp] at hq
        exact pickSegments_mem _ _ _ _ hq
    | some exc =>
      simp only [hmp] at hq
      cases exc with
      | error e => simp at hq
      | ok mpi? =>
        cases mpi? with
        | none => simp at hq
        | some mpi =>
          simp only [] at hq
          cases hcp : mpi.getClipProperty with
          | none => simp [hcp] at hq
          | some f =>
            simp only [hcp] at hq
            exact pickSegments_mem _ _ _ _ hq

theorem C9_segment_bounds (items : List (Option Item)) (rng : Rng)
    (p : ℤ × ℤ)
    (hp : p ∈ (sceneDetectionRun items rng).1.map (fun t => (t.2.1, t.2.2))) :
    2 ≤ p.2 - p.1 ∧ p.1 < p.2 := by
  suffices h : ∀ (l : List (Option Item)) (r : Rng) (q : ℤ × ℤ),
      q ∈ (sceneDetectionRun l r).1.map (fun t => (t.2.1, t.2.2)) →
      2 ≤ q.2 - q.1 by
    obtain h2 := h items rng p hp
    exact ⟨h2, by omega⟩
  intro l
  induction l with
  | nil => intro r q hq; simp [sceneDetectionRun] at hq
  | cons item rest ih =>
    intro r q hq
    simp only [sceneDetectionRun, List.map_append, List.mem_append] at hq
    rcases hq with hq | hq
    · exact processItem_mem _ _ _ hq
    · exact ih _ q hq

/-- C9 witness: the amended statement instantiated at a run over `durItem20`
with entropy `rngW`, whose first emitted pair is `(0, 2)`. -/
theorem C9_witness :
    ((0 : ℤ), (2 : ℤ)) ∈
      (sceneDetectionRun [some durItem20] rngW).1.map (fun t => (t.2.1, t.2.2)) ∧
    (2 ≤ (2 : ℤ) - 0 ∧ (0 : ℤ) < 2) :=
  ⟨by decide, C9_segment_bounds [some durItem20] rngW (0, 2) (by decide)⟩

/-! ## Worker lemmas (claims C6 and C7) -/

theorem loopBody_count_fin (val : ℕ → ℕ) (raiseAt : ℕ → Bool) :
    ∀ (fuel s : ℕ), ((loopBody val raiseAt s fuel).1).count WEvent.fin = 0 := by
  intro fuel
  induction fuel with
  | zero => intro s; rfl
  | succ fuel ih =>
    intro s
    simp only [loopBody]
    by_cases hr : raiseAt s
    · simp [hr]
    · by_cases h5 : s % 5 = 0 <;> simp [hr, h5, List.count_cons, ih]

theorem loopBody_noRaise_eq (val : ℕ → ℕ) :
    ∀ (fuel s : ℕ),
      (loopBody val noRaise s fuel).1 =
        ((List.range' s fuel).filter (fun i => decide (i % 5 = 0))).map
          (fun i => WEvent.progress (val i)) := by
  intro fuel
  induction fuel with
  | zero => intro s; rfl
  | succ fuel ih =>
    intro s
    have hrange : List.range' s (fuel + 1) = s :: List.range' (s + 1) fuel := rfl
    rw [hrange]
    simp only [loopBody, noRaise, Bool.false_eq_true, if_false, List.filter_cons]
    by_cases h5 : s % 5 = 0
    · simp only [h5, if_true, List.map_cons]
      rw [ih]
      simp
    · simp only [h5, if_false]
      rw [ih]
      simp [h5]

theorem progressValues_shape (l : List ℕ) (val : ℕ → ℕ) :
    progressValues ((l.map (fun i => WEvent.progress (val i))) ++ [WEvent.fin]) =
      l.map val := by
  induction l with
  | nil => rfl
  | cons a rest ih =>
    simp only [List.map_cons, List.cons_append, progressValues, List.filterMap_cons]
    simp only [progressValues] at ih
    rw [ih]

theorem batch_progress_eq (n : ℕ) :
    progressValues (batchExportWorkerRun n noRaise) =
      ((List.range (100 * n + 1)).filter (fun i => decide (i % 5 = 0))).map
        (fun i => i * 100 / (100 * n)) := by
  unfold batchExportWorkerRun
  rw [loopBody_noRaise_eq, ← List.range_eq_range']
  exact progressValues_shape _ _

/-! ## Claim C6 -/

/-- C6: simulated worker progress.  `AIWorker` and `ExportWorker` emit exactly
the multiples of 5 from 0 to 100, in increasing order; `BatchExportWorker`
with at least one export emits only values in `[0, 100]`, non-decreasingly,
ending at 100.  (The batch percentages `int(i / total * 100)` are modelled
with exact rational arithmetic.) -/
theorem C6_progress_invariants (num_clips num_exports : ℕ) (h : 1 ≤ num_exports) :
    progressValues (aiWorkerRun num_clips noRaise) =
      (List.range 21).map (fun k => 5 * k) ∧
    progressValues (exportWorkerRun noRaise) =
      (List.range 21).map (fun k => 5 * k) ∧
    List.Chain' (· < ·) (progressValues (aiWorkerRun num_clips noRaise)) ∧
    (∀ v ∈ progressValues (batchExportWorkerRun num_exports noRaise), v ≤ 100) ∧
    List.Chain' (· ≤ ·) (progressValues (batchExportWorkerRun num_exports noRaise)) ∧
    (progressValues (batchExportWorkerRun num_exports noRaise)).getLast? = some 100 := by
  have hai : aiWorkerRun num_clips noRaise = exportWorkerRun noRaise := rfl
  have hex : progressValues (exportWorkerRun noRaise) =
      (List.range 21).map (fun k => 5 * k) := by decide
  have hdiv : 100 * num_exports * 100 / (100 * num_exports) = 100 :=
    Nat.mul_div_cancel_left 100 (by omega)
  refine ⟨hai ▸ hex, hex, ?_, ?_, ?_, ?_⟩
  · rw [hai, hex]
    exact List.Pairwise.chain'
      (List.Pairwise.map _ (fun a b hab => by omega) (List.pairwise_lt_range 21))
  · intro v hv
    rw [batch_progress_eq] at hv
    obtain ⟨i, hi, rfl⟩ := List.mem_map.mp hv
    have hi' : i < 100 * num_exports + 1 :=
      List.mem_range.mp (List.mem_of_mem_filter hi)
    calc i * 100 / (100 * num_exports)
        ≤ 100 * num_exports * 100 / (100 * num_exports) :=
          Nat.div_le_div_right (Nat.mul_le_mul_right 100 (by omega))
      _ = 100 := hdiv
  · rw [batch_progress_eq]
    exact List.Pairwise.chain'
      (List.Pairwise.map _
        (fun a b hab =>
          Nat.div_le_div_right (Nat.mul_le_mul_right 100 (Nat.le_of_lt hab)))
        (List.Pairwise.sublist (List.filter_sublist _) (List.pairwise_lt_range _)))
  · rw [batch_progress_eq, List.range_succ, List.filter_append]
    have hlast : (List.filter (fun i => decide (i % 5 = 0)) [100 * num_exports]) =
        [100 * num_exports] := by
      simp only [List.filter_cons, List.filter_nil]
      have : (100 * num_exports) % 5 = 0 := by omega
      simp [this]
    rw [hlast, List.map_append]
    simp only [List.map_cons, List.map_nil]
    rw [List.getLast?_concat]
    rw [hdiv]

/-- C6 witness: the statement instantiated at one clip and one export. -/
theorem C6_witness :
    (1 ≤ 1) ∧
    (progressValues (aiWorkerRun 1 noRaise) = (List.range 21).map (fun k => 5 * k) ∧
     progressValues (exportWorkerRun noRaise) = (List.range 21).map (fun k => 5 * k) ∧
     List.Chain' (· < ·) (progressValues (aiWorkerRun 1 noRaise)) ∧
     (∀ v ∈ progressValues (batchExportWorkerRun 1 noRaise), v ≤ 100) ∧
     List.Chain' (· ≤ ·) (progressValues (batchExportWorkerRun 1 noRaise)) ∧
     (progressValues (batchExportWorkerRun 1 noRaise)).getLast? = some 100) :=
  ⟨by decide, C6_progress_invariants 1 1 (by decide)⟩

/-! ## Claim C7 -/

/-- C7: every run of `AIWorker`, `ExportWorker` and `BatchExportWorker` emits
the `finished` signal exactly once, whatever exceptions the simulated work
raises: the loop itself emits no `finished` event and the `finally` block
appends exactly one. -/
theorem C7_finished_exactly_once (num_clips num_exports : ℕ) (raiseAt : ℕ → Bool) :
    (aiWorkerRun num_clips raiseAt).count WEvent.fin = 1 ∧
    (exportWorkerRun raiseAt).count WEvent.fin = 1 ∧
    (batchExportWorkerRun num_exports raiseAt).count WEvent.fin = 1 := by
  refine ⟨?_, ?_, ?_⟩ <;>
    simp [aiWorkerRun, exportWorkerRun, batchExportWorkerRun,
      List.count_append, loopBody_count_fin]

/-! ## Timecode lemmas (claim C8) -/

theorem decDigitsGo_length (fuel n : ℕ) : 1 ≤ (decDigitsGo fuel n).length := by
  cases fuel with
  | zero => simp [decDigitsGo]
  | succ fuel =>
    by_cases h : n < 10 <;> simp [decDigitsGo, h]

theorem decDigits_length_two (n : ℕ) (h : 10 ≤ n) : 2 ≤ (decDigits n).length := by
  obtain ⟨m, rfl⟩ : ∃ m, n = m + 1 := ⟨n - 1, by omega⟩
  have h10 : ¬ (m + 1 < 10) := by omega
  simp only [decDigits, decDigitsGo, h10, if_false, List.length_cons]
  have := decDigitsGo_length m ((m + 1) / 10)
  omega

theorem natRepr_length (n : ℕ) : (natRepr n).length = (decDigits n).length := by
  simp [natRepr, String.length]

theorem fmt02_length (n : ℕ) : 2 ≤ (fmt02 n).length := by
  by_cases h : n < 10
  · simp only [fmt02, h, if_true]
    rw [String.length_append, natRepr_length]
    have h1 := decDigitsGo_length n n
    have h0 : ("0" : String).length = 1 := rfl
    simp only [decDigits]
    omega
  · simp only [fmt02, h, if_false]
    rw [natRepr_length]
    exact decDigits_length_two n (by omega)

theorem fmt02i_of_nonneg (n : ℤ) (h : 0 ≤ n) : fmt02i n = fmt02 n.toNat := by
  have h' : ¬ n < 0 := by omega
  simp [fmt02i, h']

theorem pyRound_nonneg (q : ℚ) (h : 0 ≤ q) : 0 ≤ pyRound q := by
  have hf : (0 : ℤ) ≤ ⌊q⌋ := Int.floor_nonneg.mpr h
  unfold pyRound
  split_ifs <;> omega

/-! ## Claim C8 -/

/-- C8: for every rational `seconds >= 0` and integer `fps >= 1`,
`seconds_to_timecode` returns `"HH:MM:SS:FF"` with every field zero-padded to
at least two characters, `MM < 60`, `SS < 60`, `FF < fps`, and
`HH*3600*fps + MM*60*fps + SS*fps + FF = round(seconds * fps)` (Python's
banker's rounding, modelled exactly by `pyRound`). -/
theorem C8_timecode_correct (seconds : ℚ) (fps : ℕ)
    (hs : 0 ≤ seconds) (hf : 1 ≤ fps) :
    ∃ h m s f : ℕ,
      seconds_to_timecode seconds fps =
        fmt02 h ++ ":" ++ fmt02 m ++ ":" ++ fmt02 s ++ ":" ++ fmt02 f ∧
      2 ≤ (fmt02 h).length ∧ 2 ≤ (fmt02 m).length ∧
      2 ≤ (fmt02 s).length ∧ 2 ≤ (fmt02 f).length ∧
      m < 60 ∧ s < 60 ∧ f < fps ∧
      ((h : ℤ) * 3600 * fps + (m : ℤ) * 60 * fps + (s : ℤ) * fps + (f : ℤ)) =
        pyRound (seconds * fps) := by
  have hfps : (0 : ℤ) < (fps : ℤ) := by exact_mod_cast hf
  have hD1 : (0 : ℤ) < (fps : ℤ) * 3600 := by positivity
  have hD2 : (0 : ℤ) < (fps : ℤ) * 60 := by positivity
  set F : ℤ := pyRound (seconds * fps) with hFdef
  have hF : 0 ≤ F :=
    pyRound_nonneg _ (mul_nonneg hs (by positivity))
  set hI : ℤ := Int.ediv F ((fps : ℤ) * 3600) with hIdef
  set r1 : ℤ := Int.emod F ((fps : ℤ) * 3600) with r1def
  set mI : ℤ := Int.ediv r1 ((fps : ℤ) * 60) with mIdef
  set r2 : ℤ := Int.emod r1 ((fps : ℤ) * 60) with r2def
  set sI : ℤ := Int.ediv r2 (fps : ℤ) with sIdef
  set fI : ℤ := Int.emod r2 (fps : ℤ) with fIdef
  have h_hI : 0 ≤ hI := Int.ediv_nonneg hF (le_of_lt hD1)
  have hr1 : 0 ≤ r1 := Int.emod_nonneg F (ne_of_gt hD1)
  have hr1' : r1 < (fps : ℤ) * 3600 := Int.emod_lt_of_pos F hD1
  have h_mI : 0 ≤ mI := Int.ediv_nonneg hr1 (le_of_lt hD2)
  have h_mI' : mI < 60 :=
    Int.ediv_lt_of_lt_mul hD2 (by linarith)
  have hr2 : 0 ≤ r2 := Int.emod_nonneg r1 (ne_of_gt hD2)
  have hr2' : r2 < (fps : ℤ) * 60 := Int.emod_lt_of_pos r1 hD2
  have h_sI : 0 ≤ sI := Int.ediv_nonneg hr2 (le_of_lt hfps)
  have h_sI' : sI < 60 :=
    Int.ediv_lt_of_lt_mul hfps (by linarith)
  have h_fI : 0 ≤ fI := Int.emod_nonneg r2 (ne_of_gt hfps)
  have h_fI' : fI < (fps : ℤ) := Int.emod_lt_of_pos r2 hfps
  have e1 : (fps : ℤ) * 3600 * hI + r1 = F := Int.ediv_add_emod F _
  have e2 : (fps : ℤ) * 60 * mI + r2 = r1 := Int.ediv_add_emod r1 _
  have e3 : (fps : ℤ) * sI + fI = r2 := Int.ediv_add_emod r2 _
  refine ⟨hI.toNat, mI.toNat, sI.toNat, fI.toNat, ?_, fmt02_length _,
    fmt02_length _, fmt02_length _, fmt02_length _, ?_, ?_, ?_, ?_⟩
  · show fmt02i hI ++ ":" ++ fmt02i mI ++ ":" ++ fmt02i sI ++ ":" ++ fmt02i fI = _
    rw [fmt02i_of_nonneg _ h_hI, fmt02i_of_nonneg _ h_mI,
      fmt02i_of_nonneg _ h_sI, fmt02i_of_nonneg _ h_fI]
  · omega
  · omega
  · omega
  · rw [Int.toNat_of_nonneg h_hI, Int.toNat_of_nonneg h_mI,
      Int.toNat_of_nonneg h_sI, Int.toNat_of_nonneg h_fI]
    linarith

/-! ## Claim C10 -/

theorem propLoop_spec (f : String → Except Unit PyVal) :
    ∀ (l : List String) (acc : PyVal), pyTruthy acc = false →
      (pyTruthy (propLoop f l acc) = true ∧
        firstTruthyProp f l = some (propLoop f l acc)) ∨
      (pyTruthy (propLoop f l acc) = false ∧ firstTruthyProp f l = none) := by
  intro l
  induction l with
  | nil => intro acc hacc; right; exact ⟨hacc, rfl⟩
  | cons p rest ih =>
    intro acc hacc
    simp only [propLoop, firstTruthyProp]
    cases hf : f p with
    | ok v =>
      by_cases hv : pyTruthy v
      · simp only [hv, if_true]
        exact Or.inl ⟨trivial, trivial⟩
      · have hv' : pyTruthy v = false := by simpa using hv
        simp only [hv', Bool.false_eq_true, if_false]
        exact ih v hv'
    | error e => exact ih acc hacc

/-- C10 counterexample: a clip item whose `"File Path"` property is the
integer `5` makes `get_clip_name` return the integer `5` — a truthy value but
not a string, refuting "always returns a non-empty string". -/
theorem C10_counterexample :
    get_clip_name (some item5) = PyVal.vInt 5 ∧
    (get_clip_name (some item5)).isStr = false := by
  exact ⟨rfl, rfl⟩

/-- C10 (amended): `get_clip_name` is total and never raises; it always
returns a truthy value (so whenever that value is a string it is non-empty,
but a truthy non-string property value is returned as is); and it returns the
string `"Unknown"` exactly when either no probed property (`"File Path"`,
`"Clip Name"`, `"Name"`) and no `GetName` call yields a truthy value, or the
yielded truthy value is itself the string `"Unknown"`. -/
theorem C10_get_clip_name_total (clip_item : Option Item) :
    pyTruthy (get_clip_name clip_item) = true ∧
    (get_clip_name clip_item = .vStr "Unknown" ↔
      (yieldedTruthyName clip_item = none ∨
       yieldedTruthyName clip_item = some (.vStr "Unknown"))) := by
  cases clip_item with
  | none =>
    refine ⟨rfl, ?_⟩
    simp [get_clip_name, yieldedTruthyName]
  | some ci =>
    cases hcp : ci.getClipProperty with
    | none =>
      refine ⟨?_, ?_⟩ <;> simp [get_clip_name, yieldedTruthyName, hcp, pyTruthy]
    | some f =>
      simp only [get_clip_name, yieldedTruthyName, hcp]
      rcases propLoop_spec f ["File Path", "Clip Name", "Name"] .vNone rfl with
        ⟨ht, hft⟩ | ⟨hfalse, hnone⟩
      · simp only [ht, if_true, hft]
        refine ⟨trivial, ?_⟩
        constructor
        · intro h; rw [h]; right; rfl
        · rintro (h | h)
          · exact absurd h (by simp)
          · exact Option.some_injective _ h
      · simp only [hfalse, Bool.false_eq_true, if_false, hnone]
        cases hgn : ci.getName with
        | none => simp [pyTruthy]
        | some exc =>
          cases exc with
          | ok v =>
            by_cases hv : pyTruthy v
            · simp only [hv, if_true]
              refine ⟨trivial, ?_⟩
              constructor
              · intro h; rw [h]; right; rfl
              · rintro (h | h)
                · exact absurd h (by simp)
                · exact Option.some_injective _ h
            · have hv' : pyTruthy v = false := by simpa using hv
              simp only [hv', Bool.false_eq_true, if_false]
              refine ⟨rfl, ?_⟩
              simp [hv']
          | error e => simp [pyTruthy]

/-- C8 witness: the statement instantiated at 3.5 seconds and 30 fps. -/
theorem C8_witness :
    (0 ≤ (7 / 2 : ℚ)) ∧ (1 ≤ 30) ∧
    (∃ h m s f : ℕ,
      seconds_to_timecode (7 / 2) 30 =
        fmt02 h ++ ":" ++ fmt02 m ++ ":" ++ fmt02 s ++ ":" ++ fmt02 f ∧
      2 ≤ (fmt02 h).length ∧ 2 ≤ (fmt02 m).length ∧
      2 ≤ (fmt02 s).length ∧ 2 ≤ (fmt02 f).length ∧
      m < 60 ∧ s < 60 ∧ f < 30 ∧
      ((h : ℤ) * 3600 * 30 + (m : ℤ) * 60 * 30 + (s : ℤ) * 30 + (f : ℤ)) =
        pyRound ((7 / 2) * 30)) :=
  ⟨by norm_num, by norm_num, C8_timecode_correct (7 / 2) 30 (by norm_num) (by norm_num)⟩

/-! ## Claim C4 -/

/-- C4: `safe_add_transition` (resp. `safe_remove_timeline_item`) invokes the
external `timeline.AddTransition` (resp. `timeline.RemoveItem`) only when the
probed availability map marks it available — otherwise it skips, logs and
returns `False` for every timeline behaviour — and a raising external call is
caught into `False`, while a successful call's result is returned. -/
theorem C4_capability_gated_calls (available_methods : List (String × Bool))
    (timeline : BTimeline) (transition_type : String) (clip1 clip2 : TClip)
    (duration : ℕ) (item : TClip) :
    (is_method_available available_methods "timeline.AddTransition" = false →
      safe_add_transition available_methods timeline transition_type clip1 clip2 duration
        = false) ∧
    (timeline.addTransition clip1.id clip2.id = .error () →
      safe_add_transition available_methods timeline transition_type clip1 clip2 duration
        = false) ∧
    (∀ r : Bool, is_method_available available_methods "timeline.AddTransition" = true →
      timeline.addTransition clip1.id clip2.id = .ok r →
      safe_add_transition available_methods timeline transition_type clip1 clip2 duration
        = r) ∧
    (is_method_available available_methods "timeline.RemoveItem" = false →
      safe_remove_timeline_item available_methods timeline item = false) ∧
    (timeline.removeItem item.id = .error () →
      safe_remove_timeline_item available_methods timeline item = false) ∧
    (∀ r : Bool, is_method_available available_methods "timeline.RemoveItem" = true →
      timeline.removeItem item.id = .ok r →
      safe_remove_timeline_item available_methods timeline item = r) := by
  refine ⟨?_, ?_, ?_, ?_, ?_, ?_⟩
  · intro h; simp [safe_add_transition, h]
  · intro h
    unfold safe_add_transition
    split_ifs with ha
    · rw [h]
    · rfl
  · intro r ha hok; simp [safe_add_transition, ha, hok]
  · intro h; simp [safe_remove_timeline_item, h]
  · intro h
    unfold safe_remove_timeline_item
    split_ifs with ha
    · rw [h]
    · rfl
  · intro r ha hok; simp [safe_remove_timeline_item, ha, hok]

/-- C4 witness: the gating, the exception catch and the pass-through
instantiated on concrete maps and timelines. -/
theorem C4_witness :
    (is_method_available [] "timeline.AddTransition" = false ∧
      safe_add_transition [] tlStub "Cross Dissolve" clipA clipB 30 = false) ∧
    (tlErrT.addTransition clipA.id clipB.id = .error () ∧
      safe_add_transition availAll tlErrT "Cross Dissolve" clipA clipB 30 = false) ∧
    (is_method_available availAll "timeline.RemoveItem" = true ∧
      tlStub.removeItem clipA.id = .ok true ∧
      safe_remove_timeline_item availAll tlStub clipA = true) :=
  ⟨⟨rfl, (C4_capability_gated_calls [] tlStub "Cross Dissolve" clipA clipB 30 clipA).1 rfl⟩,
   ⟨rfl, (C4_capability_gated_calls availAll tlErrT "Cross Dissolve" clipA clipB 30
      clipA).2.1 rfl⟩,
   ⟨rfl, rfl, (C4_capability_gated_calls availAll tlStub "Cross Dissolve" clipA clipB 30
      clipA).2.2.2.2.2 true rfl rfl⟩⟩

/-! ## Claim C5 -/

/-- C5: capability detection is purely reflection-based.  When probing fails,
the availability dict stays empty; when it succeeds, the recorded value for
every probed timeline (resp. media-pool) method name equals
`hasattr(obj, m) and callable(obj.m)` on the probed object; and
`is_method_available` returns `False` for every name absent from the dict
(in particular for every name when the dict is empty). -/
theorem C5_reflection_capability_map (r : ResolveEnv) :
    (probeObjects r = none → detect_available_methods r = []) ∧
    (∀ (timeline? media_pool? : Option HostObj) (timeline : HostObj) (b : String),
      probeObjects r = some (timeline?, media_pool?) → timeline? = some timeline →
      b ∈ timelineMethodNames →
      (detect_available_methods r).lookup ("timeline." ++ b) =
        some (hasattrCallable timeline b)) ∧
    (∀ (timeline? media_pool? : Option HostObj) (media_pool : HostObj) (b : String),
      probeObjects r = some (timeline?, media_pool?) → media_pool? = some media_pool →
      b ∈ mediaPoolMethodNames →
      (detect_available_methods r).lookup ("mediaPool." ++ b) =
        some (hasattrCallable media_pool b)) ∧
    (∀ m : String, (detect_available_methods r).lookup m = none →
      is_method_available (detect_available_methods r) m = false) := by
  refine ⟨?_, ?_, ?_, ?_⟩
  · intro h; simp [detect_available_methods, h]
  · intro tl? mp? tl b hprobe htl hb
    subst htl
    simp only [detect_available_methods, hprobe]
    simp only [timelineMethodNames, List.mem_cons, List.not_mem_nil, or_false] at hb
    rcases hb with rfl | rfl | rfl | rfl | rfl | rfl <;> rfl
  · intro tl? mp? mp b hprobe hmp hb
    subst hmp
    simp only [detect_available_methods, hprobe]
    simp only [mediaPoolMethodNames, List.mem_cons, List.not_mem_nil, or_false] at hb
    cases tl? <;> rcases hb with rfl | rfl | rfl <;> rfl
  · intro m h
    simp [is_method_available, h]

/-- C5 witness: the probed map of `envProbe` records the reflection result for
`RemoveItem` and reports `False` for the unprobed media-pool names. -/
theorem C5_witness :
    probeObjects envProbe = some (some hostTl, none) ∧
    (detect_available_methods envProbe).lookup "timeline.RemoveItem" =
      some (hasattrCallable hostTl "RemoveItem") ∧
    is_method_available (detect_available_methods envProbe) "mediaPool.TranscribeAudio"
      = false :=
  ⟨rfl,
   (C5_reflection_capability_map envProbe).2.1 (some hostTl) none hostTl "RemoveItem"
     rfl rfl (by decide),
   (C5_reflection_capability_map envProbe).2.2.2 "mediaPool.TranscribeAudio" rfl⟩

/-! ## Claim C2 -/

theorem pyCatch_isOk {α : Type} (body : Except Unit α) (fallback : α) :
    isOkE (pyCatch body fallback) = true := by
  cases body <;> rfl

theorem get_current_timeline_isOk (c : Ctrl) :
    isOkE (get_current_timeline c) = true := by
  cases h : c.projGetCurrentTimeline <;> simp [get_current_timeline, h, isOkE]

theorem apply_lut_error (c : Ctrl) (lut_path : String)
    (h : apply_lut c lut_path = .error ()) :
    ∃ tl, c.projGetCurrentTimeline = .ok (some tl) ∧
      tl.getItemsInTrack = .error () := by
  cases hp : c.projGetCurrentTimeline with
  | error e =>
    simp [apply_lut, get_current_timeline, hp, Bind.bind, Except.bind, pure,
      Except.pure] at h
  | ok tl? =>
    cases tl? with
    | none =>
      simp [apply_lut, get_current_timeline, hp, Bind.bind, Except.bind, pure,
        Except.pure] at h
    | some tl =>
      cases hgi : tl.getItemsInTrack with
      | ok clips =>
        simp [apply_lut, get_current_timeline, hp, hgi, Bind.bind, Except.bind,
          pure, Except.pure] at h
      | error e =>
        cases e
        exact ⟨tl, rfl, hgi⟩

theorem auto_apply_error (c : Ctrl) (timeline? : Option BTimeline)
    (h : auto_apply_color_and_transitions c timeline? = .error ()) :
    ∃ tl, timeline? = some tl ∧
      (tl.getItemsInTrack = .error () ∨ tl.getItemListInTrack = .error ()) := by
  cases timeline? with
  | none => simp [auto_apply_color_and_transitions] at h
  | some tl =>
    refine ⟨tl, rfl, ?_⟩
    by_cases hpath : c.pathExists "C:/Path/To/SomeDefaultLUT.cube"
    · cases hgi : tl.getItemsInTrack with
      | error e => cases e; exact Or.inl rfl
      | ok clips =>
        right
        cases hah : c.api_helper with
        | none =>
          exfalso
          simp [auto_apply_color_and_transitions, hpath, hgi, hah, Bind.bind,
            Except.bind, pure, Except.pure] at h
        | some avail =>
          by_cases hav : is_method_available avail "timeline.AddTransition"
          · cases hgl : tl.getItemListInTrack with
            | error e => cases e; exact rfl
            | ok vids =>
              exfalso
              simp [auto_apply_color_and_transitions, hpath, hgi, hah, hav, hgl,
                Bind.bind, Except.bind, pure, Except.pure] at h
          · exfalso
            simp [auto_apply_color_and_transitions, hpath, hgi, hah, hav,
              Bind.bind, Except.bind, pure, Except.pure] at h
    · right
      cases hah : c.api_helper with
      | none =>
        exfalso
        simp [auto_apply_color_and_transitions, hpath, hah, Bind.bind,
          Except.bind, pure, Except.pure] at h
      | some avail =>
        by_cases hav : is_method_available avail "timeline.AddTransition"
        · cases hgl : tl.getItemListInTrack with
          | error e => cases e; exact rfl
          | ok vids =>
            exfalso
            simp [auto_apply_color_and_transitions, hpath, hah, hav, hgl,
              Bind.bind, Except.bind, pure, Except.pure] at h
        · exfalso
          simp [auto_apply_color_and_transitions, hpath, hah, hav, Bind.bind,
            Except.bind, pure, Except.pure] at h

/-- C2 counterexample: on a controller whose current timeline's
`GetItemsInTrack` raises, `apply_lut` propagates the exception instead of
returning its failure value — the call on backend.py line 136 sits outside
every `try`. -/
theorem C2_counterexample :
    apply_lut ctrlRaising "x.cube" = .error () ∧
    isOkE (apply_lut ctrlRaising "x.cube") = false := by
  exact ⟨rfl, rfl⟩

/-- C2 (amended): `import_media`, `create_timeline`, `get_current_timeline`,
`update_timeline_with_trimmed_clips` and `fusion_automation` never propagate an
exception (each returns its failure value instead); `apply_lut` and
`auto_apply_color_and_transitions` catch the per-clip `ApplyLUT` and transition
exceptions but propagate an exception only when it was raised by the
unprotected `GetItemsInTrack` / `GetItemListInTrack` calls. -/
theorem C2_error_containment (c : Ctrl) (file_paths : List String)
    (clips : List Item) (new_clips : List (Item × ℚ × ℚ)) (lut_path : String)
    (timeline? : Option BTimeline) :
    isOkE (import_media c file_paths) = true ∧
    isOkE (create_timeline c clips) = true ∧
    isOkE (get_current_timeline c) = true ∧
    isOkE (update_timeline_with_trimmed_clips c new_clips) = true ∧
    isOkE (fusion_automation c) = true ∧
    (apply_lut c lut_path = .error () →
      ∃ tl, c.projGetCurrentTimeline = .ok (some tl) ∧
        tl.getItemsInTrack = .error ()) ∧
    (auto_apply_color_and_transitions c timeline? = .error () →
      ∃ tl, timeline? = some tl ∧
        (tl.getItemsInTrack = .error () ∨ tl.getItemListInTrack = .error ())) :=
  ⟨pyCatch_isOk _ _, pyCatch_isOk _ _, get_current_timeline_isOk c,
   pyCatch_isOk _ _, pyCatch_isOk _ _,
   apply_lut_error c lut_path, auto_apply_error c timeline?⟩

/-- C2 witness: the containment statement instantiated at `ctrlRaising`, whose
`apply_lut` and color/transition pass do propagate, exhibiting the raising
`GetItemsInTrack`. -/
theorem C2_witness :
    (isOkE (import_media ctrlRaising ["a.mp4"]) = true ∧
      isOkE (update_timeline_with_trimmed_clips ctrlRaising []) = true) ∧
    (∃ tl, ctrlRaising.projGetCurrentTimeline = .ok (some tl) ∧
      tl.getItemsInTrack = .error ()) ∧
    (∃ tl, (some tlRaising : Option BTimeline) = some tl ∧
      (tl.getItemsInTrack = .error () ∨ tl.getItemListInTrack = .error ())) :=
  ⟨⟨(C2_error_containment ctrlRaising ["a.mp4"] [] [] "x.cube" (some tlRaising)).1,
    (C2_error_containment ctrlRaising ["a.mp4"] [] [] "x.cube" (some tlRaising)).2.2.2.1⟩,
   (C2_error_containment ctrlRaising ["a.mp4"] [] [] "x.cube" (some tlRaising)).2.2.2.2.2.1 rfl,
   (C2_error_containment ctrlRaising ["a.mp4"] [] [] "x.cube"
     (some tlRaising)).2.2.2.2.2.2 rfl⟩

/-- C10 witness: the amended statement instantiated at `item5`. -/
theorem C10_witness :
    pyTruthy (get_clip_name (some item5)) = true ∧
    (get_clip_name (some item5) = .vStr "Unknown" ↔
      (yieldedTruthyName (some item5) = none ∨
       yieldedTruthyName (some item5) = some (.vStr "Unknown"))) :=
  C10_get_clip_name_total (some item5)
